import Mathlib

/- A shallow embedding of `src/lib.rs` of the rustfest-perf-workshop
repository: the `Ast`/`Value` data model, the tree-walking evaluator
`eval`, the `PartialEq` instance of `Value`, the `add` native function of
the test module, and the combine-based grammar `expr`. -/

/-- Identifiers are the `u64` keys produced by `hash_string`. -/
abbrev Ident := Nat

mutual

/-- `enum Ast<Ident>` from the source, instantiated at `Ident = u64`
(as by the parser). -/
inductive Ast where
  | Lit : Value → Ast
  | Variable : Ident → Ast
  | Call : Ast → List Ast → Ast
  | Define : Ident → Ast → Ast

/-- `enum Value<Ident>` from the source.  The Rust `InbuiltFunc` variant
stores a function pointer `fn(&[&Value]) -> Value`; a function type over
`Value` cannot occur inside the inductive itself, so the variant stores an
index into a table of native functions that `eval` receives as an extra
parameter (`Natives` below). -/
inductive Value where
  | Void : Value
  | False : Value
  | Int : Nat → Value
  | Function : List Ident → List Ast → Value
  | InbuiltFunc : Nat → Value

end

/-- The table interpreting `InbuiltFunc` indices, standing for the Rust
function pointers `fn(&[&Value]) -> Value`. -/
abbrev Natives := Nat → List Value → Value

/-- The evaluation environment `HashMap<Id, Cow<Value>, S>`, modelled as an
association list in which each key occurs at most once (`Cow` only affects
ownership, not the values observed). -/
abbrev Env := List (Ident × Value)

/-- `HashMap::get`. -/
def envLookup (k : Ident) : Env → Option Value
  | [] => none
  | (k', v) :: rest => if k' = k then some v else envLookup k rest

/-- `HashMap::insert`: overwrite the binding for `k` if present, otherwise
add it. -/
def envInsert (k : Ident) (v : Value) : Env → Env
  | [] => [(k, v)]
  | (k', v') :: rest =>
    if k' = k then (k, v) :: rest else (k', v') :: envInsert k v rest

/-- The outcome of a run of `eval`: a normal return carries the value, the
final state of the caller-owned environment (`variables` is passed by
`&mut`), and the lines printed to stdout; `panic` is a Rust `panic!`, which
aborts the entire evaluation; `timeout` reports fuel exhaustion (the Rust
original recurses on the host stack and has no such case — every claim is
stated with enough fuel for the run it describes). -/
inductive Res where
  | ok : Value → Env → List String → Res
  | panic : String → List String → Res
  | timeout : Res

/-- Outcome of the parameter-binding loop: the threaded caller environment,
the new scope, and printed lines. -/
inductive ArgsRes where
  | argsOk : Env → Env → List String → ArgsRes
  | argsPanic : String → List String → ArgsRes
  | argsTimeout : ArgsRes

/-- Outcome of evaluating the argument list of an `InbuiltFunc` call. -/
inductive ListRes where
  | listOk : List Value → Env → List String → ListRes
  | listPanic : String → List String → ListRes
  | listTimeout : ListRes

/-- The diagnostic printed by `eval` on an argument-count mismatch
(`expected` is the parameter count, `got` the argument count). -/
def arityMsg (expected got : Nat) : String :=
  "Called function with incorrect number of arguments (expected " ++
    toString expected ++ ", got " ++ toString got ++ ")"

/-- The loop `for (name, val) in args.into_iter().zip(arguments)` of the
`Function` branch of `eval`: `zip` stops at the shorter of the parameter
and argument lists, each bound argument is evaluated in the caller's
(threaded, mutable) environment, and its value is inserted into the new
scope.  Argument expressions beyond the parameter count are never reached
by `zip` and hence never evaluated. -/
def evalArgsWith (ev : Ast → Env → Res) :
    List Ident → List Ast → Env → Env → ArgsRes
  | [], _, caller, scope => .argsOk caller scope []
  | _ :: _, [], caller, scope => .argsOk caller scope []
  | p :: ps, a :: rest, caller, scope =>
    match ev a caller with
    | .ok v caller' ℓ =>
      match evalArgsWith ev ps rest caller' (envInsert p v scope) with
      | .argsOk c s ℓ' => .argsOk c s (ℓ ++ ℓ')
      | .argsPanic m ℓ' => .argsPanic m (ℓ ++ ℓ')
      | .argsTimeout => .argsTimeout
    | .panic m ℓ => .argsPanic m ℓ
    | .timeout => .argsTimeout

/-- The eager left-to-right evaluation of every argument of an
`InbuiltFunc` call (`arguments.iter().map(|ast| eval(ast, variables))`),
threading the caller's mutable environment. -/
def evalListWith (ev : Ast → Env → Res) : List Ast → Env → ListRes
  | [], env => .listOk [] env []
  | a :: rest, env =>
    match ev a env with
    | .ok v env' ℓ =>
      match evalListWith ev rest env' with
      | .listOk vs env'' ℓ' => .listOk (v :: vs) env'' (ℓ ++ ℓ')
      | .listPanic m ℓ' => .listPanic m (ℓ ++ ℓ')
      | .listTimeout => .listTimeout
    | .panic m ℓ => .listPanic m ℓ
    | .timeout => .listTimeout

/-- The body loop of the `Function` branch: `let mut out = Cow::Owned(Void);
for stmt in body.iter() { out = eval(&stmt, &mut new_scope); }` — each
statement is evaluated against the new scope (threading its mutations
forward), the value of the previous statement is overwritten, and the
result is the last value, or the initial `Void` for an empty body. -/
def evalBodyWith (ev : Ast → Env → Res) : List Ast → Env → Value → Res
  | [], scope, out => .ok out scope []
  | stmt :: rest, scope, _ =>
    match ev stmt scope with
    | .ok v scope' ℓ =>
      match evalBodyWith ev rest scope' v with
      | .ok v' s' ℓ' => .ok v' s' (ℓ ++ ℓ')
      | .panic m ℓ' => .panic m (ℓ ++ ℓ')
      | .timeout => .timeout
    | .panic m ℓ => .panic m ℓ
    | .timeout => .timeout

/-- `pub fn eval(program: &Ast<Id>, variables: &mut HashMap<Id, Cow<Value>>)
-> Cow<Value>` from the source, with a fuel index in place of the host call
stack.  The `Call`/`Function` branch clones `variables` into `new_scope`
*before* the argument loop runs, prints the arity diagnostic when the
argument count differs from the parameter count, binds the `zip`ped prefix
of parameters to arguments evaluated in `variables`, runs the body against
`new_scope`, and returns the body's last value with the (possibly mutated)
caller environment — `new_scope` is discarded. -/
def eval (natives : Natives) : Nat → Ast → Env → Res
  | 0, _, _ => .timeout
  | _ + 1, .Lit v, env => .ok v env []
  | _ + 1, .Variable name, env =>
    match envLookup name env with
    | some v => .ok v env []
    | none => .panic ("Variable does not exist: " ++ toString name) []
  | fuel + 1, .Call func arguments, env =>
    match eval natives fuel func env with
    | .ok fval env1 ℓ1 =>
      match fval with
      | .Function params body =>
        let diag : List String :=
          if arguments.length ≠ params.length then
            [arityMsg params.length arguments.length]
          else []
        match evalArgsWith (eval natives fuel) params arguments env1 env1 with
        | .argsOk caller scope ℓ2 =>
          match evalBodyWith (eval natives fuel) body scope .Void with
          | .ok v _ ℓ3 => .ok v caller (ℓ1 ++ diag ++ ℓ2 ++ ℓ3)
          | .panic m ℓ3 => .panic m (ℓ1 ++ diag ++ ℓ2 ++ ℓ3)
          | .timeout => .timeout
        | .argsPanic m ℓ2 => .panic m (ℓ1 ++ diag ++ ℓ2)
        | .argsTimeout => .timeout
      | .InbuiltFunc i =>
        match evalListWith (eval natives fuel) arguments env1 with
        | .listOk vs env2 ℓ2 => .ok (natives i vs) env2 (ℓ1 ++ ℓ2)
        | .listPanic m ℓ2 => .panic m (ℓ1 ++ ℓ2)
        | .listTimeout => .timeout
      | _ => .panic "Attempted to call a non-function" ℓ1
    | .panic m ℓ => .panic m ℓ
    | .timeout => .timeout
  | fuel + 1, .Define name vexpr, env =>
    match eval natives fuel vexpr env with
    | .ok v env1 ℓ => .ok .Void (envInsert name v env1) ℓ
    | .panic m ℓ => .panic m ℓ
    | .timeout => .timeout

/-- `impl<Id> PartialEq for Value<Id>` from the source: `Void`, `False` and
`Int` (by value) compare structurally; every other pair — including a
`Function` or `InbuiltFunc` compared with itself — falls to the catch-all
arm and is unequal. -/
def valueEq : Value → Value → Bool
  | .Void, .Void => true
  | .False, .False => true
  | .Int a, .Int b => a == b
  | _, _ => false

/-- The `add` native function of the test module: sums the `Int` arguments
(`u64` addition wraps, hence the `% 2 ^ 64`); a non-`Int` argument is
skipped (its printed complaint cannot cross the `fn(&[&Value]) -> Value`
signature and is not modelled). -/
def add : List Value → Value := fun vars =>
  .Int (vars.foldl
    (fun out v =>
      match v with
      | .Int i => (out + i) % 2 ^ 64
      | _ => out)
    0)

/-- A native table with no meaningful entries (every index returns `Void`);
used for runs whose environment registers no `InbuiltFunc`. -/
def noNatives : Natives := fun _ _ => Value.Void

/-- A native table whose every index is the test module's `add`. -/
def addNatives : Natives := fun _ vs => add vs

/-- The net effect of the parameter-binding loop on the new scope when the
bound arguments evaluate to the given values: the `zip`ped prefix of
parameters and values is inserted in order, and the loop stops at the
shorter of the two lists. -/
def bindArgs : List Ident → List Value → Env → Env
  | [], _, scope => scope
  | _ :: _, [], scope => scope
  | p :: ps, v :: vs, scope => bindArgs ps vs (envInsert p v scope)

/-- Outcome of running a combine parser on an input: `ok value rest
consumed`; `err consumed` — a recoverable parse error, the case
`easy_parse` reports with position and expected-token information
(`consumed` is combine's committed-input flag: alternation does not try
further branches after a failure that consumed input, and sequencing marks
the whole sequence consumed once any part consumed); or `panic` — a Rust
`panic!` escaping the parser (from the `.expect` in the integer rule),
which is not a parse error and aborts the process. -/
inductive PRes (α : Type) where
  | ok : α → List Char → Bool → PRes α
  | err : Bool → PRes α
  | panic : String → PRes α

/-- A parser: a function from the remaining input to a `PRes`. -/
abbrev P (α : Type) := List Char → PRes α

/-- combine's `map`: apply a pure function to the parsed value. -/
def pmap {α β : Type} (f : α → β) (p : P α) : P β := fun input =>
  match p input with
  | .ok a rest c => .ok (f a) rest c
  | .err c => .err c
  | .panic m => .panic m

/-- combine's tuple sequencing `(p, q)`. -/
def pseq {α β : Type} (p : P α) (q : P β) : P (α × β) := fun input =>
  match p input with
  | .ok a rest c =>
    match q rest with
    | .ok b rest' c' => .ok (a, b) rest' (c || c')
    | .err c' => .err (c || c')
    | .panic m => .panic m
  | .err c => .err c
  | .panic m => .panic m

/-- combine's ordered choice `p.or(q)` (what `choice!` expands to): try `q`
only when `p` failed without consuming input. -/
def por {α : Type} (p q : P α) : P α := fun input =>
  match p input with
  | .err false => q input
  | r => r

/-- combine's `char(c)`. -/
def charP (c : Char) : P Char := fun input =>
  match input with
  | c' :: rest => if c' = c then .ok c rest true else .err false
  | [] => .err false

/-- combine's `string`/`tokens`: match the given characters in order,
committing (consumed = true) as soon as the first one matches. -/
def stringP : List Char → P Unit
  | [] => fun input => .ok () input false
  | c :: cs => fun input =>
    match input with
    | [] => .err false
    | c' :: rest =>
      if c' = c then
        match stringP cs rest with
        | .ok _ rest' _ => .ok () rest' true
        | .err _ => .err true
        | .panic m => .panic m
      else .err false

/-- combine's `take_while1(pred)`: the maximal (possibly improper) run of
characters satisfying `pred`; fails without consuming when the run is
empty. -/
def takeWhile1P (pred : Char → Bool) : P (List Char) := fun input =>
  match input.takeWhile pred with
  | [] => .err false
  | c :: cs => .ok (c :: cs) (input.drop (c :: cs).length) true

/-- `skip_many(satisfy(char::is_whitespace))`: always succeeds, consuming
the leading whitespace run. -/
def skipSpacesP : P Unit := fun input =>
  let rest := input.dropWhile Char.isWhitespace
  .ok () rest (decide (rest ≠ input))

/-- The `white!` macro of the source:
`between(skip_many(whitespace), skip_many(whitespace), p)`. -/
def whiteP {α : Type} (p : P α) : P α :=
  pmap (fun x => x.1.2) (pseq (pseq skipSpacesP p) skipSpacesP)

/-- `between(char('('), char(')'), p)`. -/
def betweenParens {α : Type} (p : P α) : P α :=
  pmap (fun x => x.1.2) (pseq (pseq (charP '(') p) (charP ')'))

/-- combine's `many(p)`: repeat `p`; a failure without consumption ends the
repetition, a failure with consumption fails the whole `many`.  The fuel
bounds the number of repetitions (the source loops as long as `p`
consumes); fuel exhaustion is rendered as a non-consuming failure and is
never reached at the fuels the theorems use. -/
def manyWith {α : Type} (p : P α) : Nat → P (List α)
  | 0 => fun _ => .err false
  | f + 1 => fun input =>
    match p input with
    | .err false => .ok [] input false
    | .err true => .err true
    | .panic m => .panic m
    | .ok v rest c =>
      match manyWith p f rest with
      | .ok vs rest' c' => .ok (v :: vs) rest' (c || c')
      | .err c' => .err (c || c')
      | .panic m => .panic m

/-- Modelled from the spec: `fn hash_string` hashes the spelling with
`std`'s `DefaultHasher`, an external collaborator (§6) that the spec
requires to be pure, deterministic and collision-free (§9); it is modelled
as an injective encoding of the spelling into `Nat` (each scalar value is
below `2 ^ 21`). -/
def hash_string (x : String) : Nat :=
  x.data.foldl (fun h c => h * 2 ^ 21 + (c.toNat + 1)) 0

/-- `ident()`: a whitespace-wrapped maximal run of alphabetic characters,
hashed.  (Rust's `char::is_alphabetic` is Unicode-aware; `Char.isAlpha`
covers the ASCII identifiers all claims use.) -/
def identP : P Ident :=
  pmap (fun cs => hash_string (String.mk cs)) (whiteP (takeWhile1P Char.isAlpha))

/-- The value of a run of decimal digits, as computed by
`str::parse::<u64>` before its range check. -/
def natOfDigits (ds : List Char) : Nat :=
  ds.foldl (fun acc c => acc * 10 + (c.toNat - '0'.toNat)) 0

/-- The `lit_num` rule:
`many1(digit()).map(|i| Ast::Lit(Value::Int(i.parse().expect("Parsing integer failed"))))`.
`many1(digit())` is the maximal nonempty digit run; a value outside the
`u64` range makes the `.expect` panic — a process abort, not a combine
parse error. -/
def lit_num : P Ast := fun input =>
  match takeWhile1P Char.isDigit input with
  | .ok ds rest c =>
    if natOfDigits ds < 2 ^ 64 then .ok (Ast.Lit (Value.Int (natOfDigits ds))) rest c
    else .panic "Parsing integer failed"
  | .err c => .err c
  | .panic m => .panic m

/-- The `flse` rule: `white!(string("#f")).map(|_| Ast::Lit(Value::False))`. -/
def flse : P Ast := pmap (fun _ => Ast.Lit Value.False) (whiteP (stringP ['#', 'f']))

/-- The grammar `parser! { pub fn expr['a, I]()(I) -> Ast<u64> ... }` of the
source, with a fuel index bounding the recursion depth (the source recurses
directly; every claim is stated with enough fuel).  The ordered choice, the
`white!` wrapping, and the `\`-vs-`=`-vs-call disambiguation inside
parentheses follow the source text. -/
def expr : Nat → P Ast
  | 0 => fun _ => .err false
  | f + 1 =>
    let function : P Ast := pmap (fun x => Ast.Lit (Value.Function x.1.2 x.2))
      (pseq (pseq (whiteP (charP '\\'))
                  (whiteP (betweenParens (manyWith identP f))))
            (manyWith (expr f) f))
    let define : P Ast := pmap (fun x => Ast.Define x.1.2 x.2)
      (pseq (pseq (whiteP (charP '=')) identP) (expr f))
    let call : P Ast := pmap (fun x => Ast.Call x.1 x.2)
      (pseq (expr f) (manyWith (expr f) f))
    whiteP (por flse (por lit_num (por (pmap Ast.Variable identP)
      (betweenParens (por function (por define call))))))

/-- Whether a parser outcome is a recoverable parse error (the kind
`easy_parse` returns as `Err`, with position and expected-token context),
as opposed to a successful parse or a panic. -/
def isParseErr {α : Type} : PRes α → Bool
  | .err _ => true
  | _ => false

/- Helper lemmas (shared; no claim theorem is used by another proof). -/

theorem envLookup_envInsert_self (k : Ident) (v : Value) (e : Env) :
    envLookup k (envInsert k v e) = some v := by
  induction e with
  | nil => simp [envInsert, envLookup]
  | cons hd tl ih =>
    obtain ⟨k', v'⟩ := hd
    by_cases h : k' = k
    · subst h; simp [envInsert, envLookup]
    · simp [envInsert, envLookup, h, ih]

theorem envLookup_envInsert_ne (k k' : Ident) (v : Value) (e : Env)
    (h : k ≠ k') : envLookup k (envInsert k' v e) = envLookup k e := by
  induction e with
  | nil => simp [envInsert, envLookup, Ne.symm h]
  | cons hd tl ih =>
    obtain ⟨a, b⟩ := hd
    by_cases ha : a = k'
    · subst ha; simp [envInsert, envLookup, Ne.symm h]
    · by_cases hk : a = k
      · subst hk; simp [envInsert, envLookup, ha]
      · simp [envInsert, envLookup, ha, hk, ih]

theorem evalArgsWith_lit (ev : Ast → Env → Res)
    (hlit : ∀ v env, ev (Ast.Lit v) env = Res.ok v env []) :
    ∀ (ps : List Ident) (vs : List Value) (caller scope : Env),
    evalArgsWith ev ps (vs.map Ast.Lit) caller scope =
      ArgsRes.argsOk caller (bindArgs ps vs scope) [] := by
  intro ps
  induction ps with
  | nil => intro vs caller scope; cases vs <;> simp [evalArgsWith, bindArgs]
  | cons p ps ih =>
    intro vs caller scope
    cases vs with
    | nil => simp [evalArgsWith, bindArgs]
    | cons v vs => simp [evalArgsWith, bindArgs, hlit, ih]

theorem evalArgsWith_lit_append (ev : Ast → Env → Res)
    (hlit : ∀ v env, ev (Ast.Lit v) env = Res.ok v env []) :
    ∀ (ps : List Ident) (vs : List Value) (extras : List Ast)
      (caller scope : Env), ps.length = vs.length →
    evalArgsWith ev ps (vs.map Ast.Lit ++ extras) caller scope =
      ArgsRes.argsOk caller (bindArgs ps vs scope) [] := by
  intro ps
  induction ps with
  | nil =>
    intro vs extras caller scope hlen
    cases vs with
    | nil => simp [evalArgsWith, bindArgs]
    | cons v vs => simp at hlen
  | cons p ps ih =>
    intro vs extras caller scope hlen
    cases vs with
    | nil => simp at hlen
    | cons v vs =>
      simp at hlen
      simp [evalArgsWith, bindArgs, hlit, ih _ _ _ _ hlen]

theorem evalListWith_lit_then_panic (ev : Ast → Env → Res)
    (hlit : ∀ v env, ev (Ast.Lit v) env = Res.ok v env [])
    (a : Ast) (m : String) (ℓ : List String) :
    ∀ (vs : List Value) (env : Env), ev a env = Res.panic m ℓ →
    evalListWith ev (vs.map Ast.Lit ++ [a]) env = ListRes.listPanic m ℓ := by
  intro vs
  induction vs with
  | nil => intro env h; simp [evalListWith, h]
  | cons v vs ih => intro env h; simp [evalListWith, hlit, ih _ h]

theorem envLookup_bindArgs_notMem :
    ∀ (ps : List Ident) (vs : List Value) (scope : Env) (id : Ident),
    id ∉ ps.take vs.length →
    envLookup id (bindArgs ps vs scope) = envLookup id scope := by
  intro ps
  induction ps with
  | nil => intro vs scope id _; cases vs <;> simp [bindArgs]
  | cons p ps ih =>
    intro vs scope id hmem
    cases vs with
    | nil => simp [bindArgs]
    | cons v vs =>
      simp only [List.length_cons, List.take_succ_cons, List.mem_cons,
        not_or] at hmem
      rw [bindArgs, ih _ _ _ hmem.2,
        envLookup_envInsert_ne _ _ _ _ hmem.1]

/- Claim theorems and their witnesses. -/

/-- C7: structural equality on `Value` holds exactly for `Void`/`Void`,
`False`/`False` and `Int a`/`Int b` with `a = b`; every comparison
involving a `Function` or an `InbuiltFunc` — including with itself — is
unequal. -/
theorem valueEq_characterization (v w : Value) :
    (valueEq v w = true ↔
      (v = Value.Void ∧ w = Value.Void) ∨
      (v = Value.False ∧ w = Value.False) ∨
      (∃ n, v = Value.Int n ∧ w = Value.Int n)) ∧
    (∀ ps body, valueEq (Value.Function ps body) (Value.Function ps body) = false) ∧
    (∀ i, valueEq (Value.InbuiltFunc i) (Value.InbuiltFunc i) = false) ∧
    (∀ ps body x, valueEq (Value.Function ps body) x = false ∧
      valueEq x (Value.Function ps body) = false) ∧
    (∀ i x, valueEq (Value.InbuiltFunc i) x = false ∧
      valueEq x (Value.InbuiltFunc i) = false) := by
  refine ⟨?_, ?_, ?_, ?_, ?_⟩
  · (cases v <;> cases w <;> simp [valueEq]); exact eq_comm
  · intro ps body; rfl
  · intro i; rfl
  · intro ps body x; exact ⟨rfl, by cases x <;> rfl⟩
  · intro i x; exact ⟨rfl, by cases x <;> rfl⟩

/-- C7 witness: `Int 3 = Int 3`, and a concrete `Function` value is unequal
to itself. -/
theorem valueEq_characterization_wit :
    valueEq (Value.Int 3) (Value.Int 3) = true ∧
    valueEq (Value.Function [0] [Ast.Variable 0]) (Value.Function [0] [Ast.Variable 0]) = false := by
  constructor
  · exact (valueEq_characterization (Value.Int 3) (Value.Int 3)).1.mpr
      (Or.inr (Or.inr ⟨3, rfl, rfl⟩))
  · exact (valueEq_characterization Value.Void Value.Void).2.1 [0] [Ast.Variable 0]

/-- C8: parsing `"((\(x) x) 7)"` succeeds, producing the application of the
one-parameter identity function to the literal `7`, and evaluating that
expression in the empty environment (no native functions registered, and
under any native table) yields `Int 7` with the environment unchanged and
nothing printed. -/
theorem parse_eval_identity_seven :
    expr 10 (String.toList "((\\(x) x) 7)") =
      PRes.ok (Ast.Call (Ast.Lit (Value.Function [hash_string "x"]
        [Ast.Variable (hash_string "x")])) [Ast.Lit (Value.Int 7)]) [] true ∧
    ∀ natives : Natives,
      eval natives 10 (Ast.Call (Ast.Lit (Value.Function [hash_string "x"]
        [Ast.Variable (hash_string "x")])) [Ast.Lit (Value.Int 7)]) [] =
      Res.ok (Value.Int 7) [] [] := by
  exact ⟨by rfl, fun natives => by rfl⟩

/-- C8 witness: the evaluation conjunct at the trivial native table. -/
theorem parse_eval_identity_seven_wit :
    eval noNatives 10 (Ast.Call (Ast.Lit (Value.Function [hash_string "x"]
      [Ast.Variable (hash_string "x")])) [Ast.Lit (Value.Int 7)]) [] =
    Res.ok (Value.Int 7) [] [] :=
  parse_eval_identity_seven.2 noNatives

/-- C1: a free identifier in a function body (here the body `Variable y`
of a one-parameter function with parameter `x ≠ y`) resolves to the
caller's binding of `y` at call time — the `Function` value records no
definition-site environment at all — and the same function value called
under two environments that bind `y` differently returns the two different
values. -/
theorem eval_dynamic_scope (natv : Natives) (f : Nat) (x y : Ident)
    (v w : Value) (env : Env) (hxy : x ≠ y)
    (hy : envLookup y env = some v) :
    eval natv (f + 3) (Ast.Call (Ast.Lit (Value.Function [x] [Ast.Variable y]))
      [Ast.Lit w]) env = Res.ok v env [] ∧
    eval noNatives 3 (Ast.Call (Ast.Lit (Value.Function [0] [Ast.Variable 1]))
      [Ast.Lit Value.Void]) [(1, Value.Int 10)] =
      Res.ok (Value.Int 10) [(1, Value.Int 10)] [] ∧
    eval noNatives 3 (Ast.Call (Ast.Lit (Value.Function [0] [Ast.Variable 1]))
      [Ast.Lit Value.Void]) [(1, Value.Int 20)] =
      Res.ok (Value.Int 20) [(1, Value.Int 20)] [] := by
  refine ⟨?_, by rfl, by rfl⟩
  have hlit : ∀ (v' : Value) (env' : Env),
      eval natv (f + 2) (Ast.Lit v') env' = Res.ok v' env' [] := by
    intro v' env'; simp [eval]
  have harg := evalArgsWith_lit (eval natv (f + 2)) hlit [x] [w] env env
  simp only [List.map] at harg
  simp [eval, harg, evalBodyWith, bindArgs,
    envLookup_envInsert_ne y x w env (Ne.symm hxy), hy]

/-- C1 witness: instantiated at `x = 0`, `y = 1`, `env = [(1, Int 5)]`. -/
theorem eval_dynamic_scope_wit :
    ((0 : Ident) ≠ 1 ∧ envLookup 1 [(1, Value.Int 5)] = some (Value.Int 5)) ∧
    eval noNatives 3 (Ast.Call (Ast.Lit (Value.Function [0] [Ast.Variable 1]))
      [Ast.Lit Value.Void]) [(1, Value.Int 5)] =
      Res.ok (Value.Int 5) [(1, Value.Int 5)] [] :=
  ⟨⟨by decide, by rfl⟩,
    (eval_dynamic_scope noNatives 0 0 1 (Value.Int 5) Value.Void
      [(1, Value.Int 5)] (by decide) (by rfl)).1⟩

/-- C2: for a call whose callee evaluates to a `Function` (leaving the
environment unchanged), the caller's environment after the call is exactly
the environment produced by evaluating the bound arguments — the body runs
against the discarded `new_scope`, so no `Define` in the body (for any
body) is visible to the caller; in particular an identifier unbound after
argument evaluation is still unbound after the call. -/
theorem eval_body_defines_not_visible (natv : Natives) (f : Nat) (c : Ast)
    (as : List Ast) (env env1 caller scope : Env) (params : List Ident)
    (body : List Ast) (ℓ1 ℓ2 : List String) (id : Ident) (v : Value)
    (env' : Env) (ℓ : List String)
    (h1 : eval natv f c env = Res.ok (Value.Function params body) env1 ℓ1)
    (h2 : evalArgsWith (eval natv f) params as env1 env1 =
      ArgsRes.argsOk caller scope ℓ2)
    (h3 : envLookup id caller = none)
    (h4 : eval natv (f + 1) (Ast.Call c as) env = Res.ok v env' ℓ) :
    env' = caller ∧ envLookup id env' = none := by
  cases hb : evalBodyWith (eval natv f) body scope Value.Void with
  | ok v3 s3 ℓ3 =>
    simp only [eval, h1, h2, hb, Res.ok.injEq] at h4
    obtain ⟨h5, h6, h7⟩ := h4
    subst h6
    exact ⟨rfl, h3⟩
  | panic m3 ℓ3 => simp [eval, h1, h2, hb] at h4
  | timeout => simp [eval, h1, h2, hb] at h4

/-- C2 witness: a body that `Define`s the unbound identifier `5`; after the
call the caller's environment is unchanged and `5` is still unbound. -/
theorem eval_body_defines_not_visible_wit :
    (eval noNatives 2 (Ast.Lit (Value.Function [] [Ast.Define 5 (Ast.Lit (Value.Int 9))])) [] =
        Res.ok (Value.Function [] [Ast.Define 5 (Ast.Lit (Value.Int 9))]) [] [] ∧
      evalArgsWith (eval noNatives 2) [] [] [] [] = ArgsRes.argsOk [] [] [] ∧
      envLookup 5 [] = none ∧
      eval noNatives 3 (Ast.Call (Ast.Lit (Value.Function []
        [Ast.Define 5 (Ast.Lit (Value.Int 9))])) []) [] = Res.ok Value.Void [] []) ∧
    (([] : Env) = [] ∧ envLookup 5 ([] : Env) = none) :=
  ⟨⟨by rfl, by rfl, by rfl, by rfl⟩,
    eval_body_defines_not_visible noNatives 2
      (Ast.Lit (Value.Function [] [Ast.Define 5 (Ast.Lit (Value.Int 9))]))
      [] [] [] [] [] [] [Ast.Define 5 (Ast.Lit (Value.Int 9))] [] [] 5
      Value.Void [] [] (by rfl) (by rfl) (by rfl) (by rfl)⟩

/-- C3: when the argument count differs from the parameter count, the call
does not abort: the arity diagnostic (expected = parameter count, got =
argument count) is printed — also when the body later panics — the body is
then evaluated as usual against the scope produced by the binding loop, and
(for literal arguments) that scope binds exactly the `zip`ped prefix:
every identifier outside the bound prefix, in particular every parameter
past the argument count, keeps its previous binding (no default is
inserted). -/
theorem eval_arity_mismatch_degraded (natv : Natives) (f : Nat) (c : Ast)
    (as : List Ast) (env env1 caller scope : Env) (params : List Ident)
    (body : List Ast) (ℓ1 ℓ2 : List String)
    (hne : as.length ≠ params.length)
    (h1 : eval natv f c env = Res.ok (Value.Function params body) env1 ℓ1)
    (h2 : evalArgsWith (eval natv f) params as env1 env1 =
      ArgsRes.argsOk caller scope ℓ2) :
    (∀ v s ℓ3, evalBodyWith (eval natv f) body scope Value.Void = Res.ok v s ℓ3 →
      eval natv (f + 1) (Ast.Call c as) env =
        Res.ok v caller (ℓ1 ++ [arityMsg params.length as.length] ++ ℓ2 ++ ℓ3)) ∧
    (∀ m ℓ3, evalBodyWith (eval natv f) body scope Value.Void = Res.panic m ℓ3 →
      eval natv (f + 1) (Ast.Call c as) env =
        Res.panic m (ℓ1 ++ [arityMsg params.length as.length] ++ ℓ2 ++ ℓ3)) ∧
    (∀ (vs : List Value) (id : Ident), id ∉ params.take vs.length →
      envLookup id (bindArgs params vs env) = envLookup id env) ∧
    (∀ (vs : List Value) (caller2 scope2 : Env),
      evalArgsWith (eval natv (f + 1)) params (vs.map Ast.Lit) caller2 scope2 =
        ArgsRes.argsOk caller2 (bindArgs params vs scope2) []) := by
  refine ⟨?_, ?_, ?_, ?_⟩
  · intro v s ℓ3 hb
    simp [eval, h1, h2, hb, hne]
  · intro m ℓ3 hb
    simp [eval, h1, h2, hb, hne]
  · intro vs id hmem
    exact envLookup_bindArgs_notMem params vs env id hmem
  · intro vs caller2 scope2
    exact evalArgsWith_lit (eval natv (f + 1)) (fun v' e' => by simp [eval])
      params vs caller2 scope2

/-- C3 witness: `(\(a b) a)` (parameters `0, 1`) applied to the single
argument `1`: the diagnostic `expected 2, got 1` is printed, only `a` is
bound, and the call returns `a`'s value `Int 1`; the unbound parameter `1`
stays absent from the scope. -/
theorem eval_arity_mismatch_degraded_wit :
    (([Ast.Lit (Value.Int 1)] : List Ast).length ≠ ([0, 1] : List Ident).length ∧
      eval noNatives 1 (Ast.Lit (Value.Function [0, 1] [Ast.Variable 0])) [] =
        Res.ok (Value.Function [0, 1] [Ast.Variable 0]) [] [] ∧
      evalArgsWith (eval noNatives 1) [0, 1] [Ast.Lit (Value.Int 1)] [] [] =
        ArgsRes.argsOk [] [(0, Value.Int 1)] []) ∧
    eval noNatives 2 (Ast.Call (Ast.Lit (Value.Function [0, 1] [Ast.Variable 0]))
      [Ast.Lit (Value.Int 1)]) [] =
      Res.ok (Value.Int 1) [] ([] ++ [arityMsg 2 1] ++ [] ++ []) ∧
    envLookup 1 (bindArgs [0, 1] [Value.Int 1] []) = envLookup 1 [] :=
  ⟨⟨by decide, by rfl, by rfl⟩,
    (eval_arity_mismatch_degraded noNatives 1
      (Ast.Lit (Value.Function [0, 1] [Ast.Variable 0]))
      [Ast.Lit (Value.Int 1)] [] [] [] [(0, Value.Int 1)] [0, 1]
      [Ast.Variable 0] [] [] (by decide) (by rfl) (by rfl)).1
      (Value.Int 1) [(0, Value.Int 1)] [] (by rfl),
    (eval_arity_mismatch_degraded noNatives 1
      (Ast.Lit (Value.Function [0, 1] [Ast.Variable 0]))
      [Ast.Lit (Value.Int 1)] [] [] [] [(0, Value.Int 1)] [0, 1]
      [Ast.Variable 0] [] [] (by decide) (by rfl) (by rfl)).2.2.1
      [Value.Int 1] 1 (by decide)⟩

/-- C5: an undefined-variable lookup and a call on a non-callable value
(`Void`, `False`, or `Int`) are Rust panics that abort the whole
evaluation: the result of the run is the panic itself (no value, no
resulting environment), the message identifies the failing identifier
resp. the non-function nature of the callee, and a panic in a subexpression
propagates unchanged through an enclosing `Define` or `Call` instead of
being caught. -/
theorem eval_fatal_errors :
    (∀ (natv : Natives) (f : Nat) (id : Ident) (env : Env),
      envLookup id env = none →
      eval natv (f + 1) (Ast.Variable id) env =
        Res.panic ("Variable does not exist: " ++ toString id) []) ∧
    (∀ (natv : Natives) (f : Nat) (c : Ast) (as : List Ast) (env env1 : Env)
      (v : Value) (ℓ : List String),
      eval natv f c env = Res.ok v env1 ℓ →
      (v = Value.Void ∨ v = Value.False ∨ ∃ n, v = Value.Int n) →
      eval natv (f + 1) (Ast.Call c as) env =
        Res.panic "Attempted to call a non-function" ℓ) ∧
    (∀ (natv : Natives) (f : Nat) (id : Ident) (e : Ast) (env : Env)
      (m : String) (ℓ : List String),
      eval natv f e env = Res.panic m ℓ →
      eval natv (f + 1) (Ast.Define id e) env = Res.panic m ℓ ∧
      eval natv (f + 1) (Ast.Call e []) env = Res.panic m ℓ) := by
  refine ⟨?_, ?_, ?_⟩
  · intro natv f id env h
    simp [eval, h]
  · intro natv f c as env env1 v ℓ h1 hv
    rcases hv with rfl | rfl | ⟨n, rfl⟩ <;> simp [eval, h1]
  · intro natv f id e env m ℓ h
    exact ⟨by simp [eval, h], by simp [eval, h]⟩

/-- C5 witness: looking up the unbound `3` panics with its name; calling
the literal `Int 0` panics as a non-function call; the undefined-variable
panic inside a `Define` propagates out unchanged. -/
theorem eval_fatal_errors_wit :
    (envLookup 3 [] = none ∧
      eval noNatives 1 (Ast.Variable 3) [] =
        Res.panic ("Variable does not exist: " ++ toString (3 : Ident)) []) ∧
    (eval noNatives 1 (Ast.Lit (Value.Int 0)) [] = Res.ok (Value.Int 0) [] [] ∧
      eval noNatives 2 (Ast.Call (Ast.Lit (Value.Int 0)) []) [] =
        Res.panic "Attempted to call a non-function" []) ∧
    (eval noNatives 1 (Ast.Variable 4) [] =
        Res.panic ("Variable does not exist: " ++ toString (4 : Ident)) [] ∧
      eval noNatives 2 (Ast.Define 5 (Ast.Variable 4)) [] =
        Res.panic ("Variable does not exist: " ++ toString (4 : Ident)) []) :=
  ⟨⟨by rfl, eval_fatal_errors.1 noNatives 0 3 [] (by rfl)⟩,
    ⟨by rfl, eval_fatal_errors.2.1 noNatives 1 (Ast.Lit (Value.Int 0)) [] [] []
      (Value.Int 0) [] (by rfl) (Or.inr (Or.inr ⟨0, rfl⟩))⟩,
    ⟨by rfl, (eval_fatal_errors.2.2 noNatives 1 5 (Ast.Variable 4) []
      ("Variable does not exist: " ++ toString (4 : Ident)) [] (by rfl)).1⟩⟩

/-- C6: a call on a function with an empty body returns `Void`; and the
body statements run in sequence against the new scope with each `Define`
visible to the later statements, the call returning the last statement's
value — witnessed in general form by the one-parameter function
`\(x) (= y x) (add x y)` applied to `3`, which returns `Int 6` whenever
`addId` is bound to an `InbuiltFunc` behaving like the test module's
`add`. -/
theorem eval_body_sequencing (natv : Natives) (f : Nat) (env : Env)
    (x y addId : Ident) (i : Nat) (hxy : x ≠ y) (hax : addId ≠ x)
    (hay : addId ≠ y)
    (haddEnv : envLookup addId env = some (Value.InbuiltFunc i))
    (hnat : ∀ vs, natv i vs = add vs) :
    eval natv (f + 2) (Ast.Call (Ast.Lit (Value.Function [] [])) []) env =
      Res.ok Value.Void env [] ∧
    eval natv (f + 3) (Ast.Call (Ast.Lit (Value.Function [x]
        [Ast.Define y (Ast.Variable x),
         Ast.Call (Ast.Variable addId) [Ast.Variable x, Ast.Variable y]]))
      [Ast.Lit (Value.Int 3)]) env = Res.ok (Value.Int 6) env [] := by
  constructor
  · simp [eval, evalArgsWith, evalBodyWith]
  · simp only [eval, evalArgsWith, evalBodyWith, evalListWith,
      envLookup_envInsert_self, envLookup_envInsert_ne _ _ _ _ hax,
      envLookup_envInsert_ne _ _ _ _ hay, envLookup_envInsert_ne _ _ _ _ hxy,
      haddEnv, hnat, add]
    norm_num

/-- C6 witness: instantiated at `x = 0`, `y = 1`, `addId = 2`,
`env = [(2, InbuiltFunc 0)]` and the all-`add` native table. -/
theorem eval_body_sequencing_wit :
    ((0 : Ident) ≠ 1 ∧ (2 : Ident) ≠ 0 ∧ (2 : Ident) ≠ 1 ∧
      envLookup 2 [(2, Value.InbuiltFunc 0)] = some (Value.InbuiltFunc 0) ∧
      addNatives 0 [Value.Int 3, Value.Int 3] = add [Value.Int 3, Value.Int 3]) ∧
    eval addNatives 3 (Ast.Call (Ast.Lit (Value.Function [0]
        [Ast.Define 1 (Ast.Variable 0),
         Ast.Call (Ast.Variable 2) [Ast.Variable 0, Ast.Variable 1]]))
      [Ast.Lit (Value.Int 3)]) [(2, Value.InbuiltFunc 0)] =
      Res.ok (Value.Int 6) [(2, Value.InbuiltFunc 0)] [] :=
  ⟨⟨by decide, by decide, by decide, by rfl, rfl⟩,
    (eval_body_sequencing addNatives 0 [(2, Value.InbuiltFunc 0)] 0 1 2 0
      (by decide) (by decide) (by decide) (by rfl) (fun _ => rfl)).2⟩

/-- C9: `new_scope` is cloned from the caller's environment before the
argument loop runs: a `Define` evaluated inside an argument expression
mutates the caller's environment — the binding is present there after the
call returns — but the function body still sees the pre-argument value of
the identifier through its snapshot scope (plus the parameter binding). -/
theorem eval_new_scope_snapshot (natv : Natives) (f : Nat) (p id : Ident)
    (v0 w : Value) (env : Env) (hp : p ≠ id)
    (hid : envLookup id env = some v0) :
    eval natv (f + 3) (Ast.Call (Ast.Lit (Value.Function [p] [Ast.Variable id]))
        [Ast.Define id (Ast.Lit w)]) env =
      Res.ok v0 (envInsert id w env) [] ∧
    envLookup id (envInsert id w env) = some w := by
  constructor
  · simp [eval, evalArgsWith, evalBodyWith,
      envLookup_envInsert_ne id p Value.Void env (Ne.symm hp), hid]
  · exact envLookup_envInsert_self id w env

/-- C9 witness: `(\(p) id)` with `p = 0`, `id = 1` applied to the argument
`(= id 9)` under `[(1, Int 5)]`: the body sees the old `Int 5`, while the
caller's environment afterwards holds `Int 9` for `id`. -/
theorem eval_new_scope_snapshot_wit :
    ((0 : Ident) ≠ 1 ∧ envLookup 1 [(1, Value.Int 5)] = some (Value.Int 5)) ∧
    eval noNatives 3 (Ast.Call (Ast.Lit (Value.Function [0] [Ast.Variable 1]))
        [Ast.Define 1 (Ast.Lit (Value.Int 9))]) [(1, Value.Int 5)] =
      Res.ok (Value.Int 5) (envInsert 1 (Value.Int 9) [(1, Value.Int 5)]) [] ∧
    envLookup 1 (envInsert 1 (Value.Int 9) [(1, Value.Int 5)]) =
      some (Value.Int 9) :=
  ⟨⟨by decide, by rfl⟩,
    (eval_new_scope_snapshot noNatives 0 0 1 (Value.Int 5) (Value.Int 9)
      [(1, Value.Int 5)] (by decide) (by rfl)).1,
    (eval_new_scope_snapshot noNatives 0 0 1 (Value.Int 5) (Value.Int 9)
      [(1, Value.Int 5)] (by decide) (by rfl)).2⟩

/-- C10: for a `Function` call with more arguments than parameters, the
excess argument expressions are never evaluated — whatever they contain,
the call returns the body's result with the caller's environment untouched
by them and only the arity diagnostic added — whereas for an
`InbuiltFunc` call every argument expression is evaluated, so a panic in
the last of `n + 1` arguments aborts the call. -/
theorem eval_excess_args_not_evaluated (natv : Natives) (f : Nat)
    (params : List Ident) (body : List Ast) (argvals : List Value)
    (extras : List Ast) (env : Env) (a : Ast) (i : Nat) (vals : List Value)
    (m : String) (ℓ : List String)
    (hlen : params.length = argvals.length) (hex : extras ≠ []) :
    (∀ v s ℓ3,
      evalBodyWith (eval natv (f + 1)) body (bindArgs params argvals env)
        Value.Void = Res.ok v s ℓ3 →
      eval natv (f + 2) (Ast.Call (Ast.Lit (Value.Function params body))
          (argvals.map Ast.Lit ++ extras)) env =
        Res.ok v env
          (arityMsg params.length (argvals.length + extras.length) :: ℓ3)) ∧
    (eval natv (f + 1) a env = Res.panic m ℓ →
      eval natv (f + 2) (Ast.Call (Ast.Lit (Value.InbuiltFunc i))
          (vals.map Ast.Lit ++ [a])) env = Res.panic m ℓ) := by
  have hlit : ∀ (v' : Value) (e' : Env),
      eval natv (f + 1) (Ast.Lit v') e' = Res.ok v' e' [] := by
    intro v' e'; simp [eval]
  have hexlen : extras.length ≠ 0 := by
    intro h0; exact hex (List.length_eq_zero.mp h0)
  constructor
  · intro v s ℓ3 hb
    have harg := evalArgsWith_lit_append (eval natv (f + 1)) hlit params argvals
      extras env env hlen
    have hcond : (argvals.map Ast.Lit ++ extras).length ≠ params.length := by
      rw [List.length_append, List.length_map, hlen]
      omega
    simp [eval, harg, hb, hlen]
    rw [if_neg hcond]
    simp
  · intro hpa
    have hargs := evalListWith_lit_then_panic (eval natv (f + 1)) hlit a m ℓ
      vals env hpa
    simp [eval, hargs]

/-- C10 witness: `(\(p) )` with one parameter applied to a literal plus two
excess arguments — one `Define`, one undefined-variable reference — returns
normally with only the diagnostic `expected 1, got 3`, no panic and no new
binding; calling `InbuiltFunc 0` with `[Void, Variable 9]` evaluates the
undefined `Variable 9` and panics. -/
theorem eval_excess_args_not_evaluated_wit :
    (([0] : List Ident).length = ([Value.Int 1] : List Value).length ∧
      ([Ast.Define 7 (Ast.Lit (Value.Int 9)), Ast.Variable 8] : List Ast) ≠ [] ∧
      evalBodyWith (eval noNatives 2) [] (bindArgs [0] [Value.Int 1] [])
        Value.Void = Res.ok Value.Void [(0, Value.Int 1)] [] ∧
      eval noNatives 2 (Ast.Variable 9) [] =
        Res.panic ("Variable does not exist: " ++ toString (9 : Ident)) []) ∧
    eval noNatives 3 (Ast.Call (Ast.Lit (Value.Function [0] []))
        ([Ast.Lit (Value.Int 1), Ast.Define 7 (Ast.Lit (Value.Int 9)),
          Ast.Variable 8])) [] =
      Res.ok Value.Void [] [arityMsg 1 3] ∧
    eval noNatives 3 (Ast.Call (Ast.Lit (Value.InbuiltFunc 0))
        [Ast.Lit Value.Void, Ast.Variable 9]) [] =
      Res.panic ("Variable does not exist: " ++ toString (9 : Ident)) [] :=
  ⟨⟨by decide, by simp, by rfl, by rfl⟩,
    (eval_excess_args_not_evaluated noNatives 1 [0] [] [Value.Int 1]
      [Ast.Define 7 (Ast.Lit (Value.Int 9)), Ast.Variable 8] [] (Ast.Variable 9)
      0 [Value.Void] ("Variable does not exist: " ++ toString (9 : Ident)) []
      (by decide) (by simp)).1 Value.Void [(0, Value.Int 1)] [] (by rfl),
    (eval_excess_args_not_evaluated noNatives 1 [0] [] [Value.Int 1]
      [Ast.Define 7 (Ast.Lit (Value.Int 9)), Ast.Variable 8] [] (Ast.Variable 9)
      0 [Value.Void] ("Variable does not exist: " ++ toString (9 : Ident)) []
      (by decide) (by simp)).2 (by rfl)⟩

theorem isDigit_isWhitespace_false (c : Char) (h : c.isDigit = true) :
    c.isWhitespace = false := by
  rcases hw : c.isWhitespace with _ | _
  · rfl
  · exfalso
    simp only [Char.isWhitespace, Bool.or_eq_true, decide_eq_true_eq] at hw
    rcases hw with ((h1 | h1) | h1) | h1 <;>
      (subst h1; exact absurd h (by decide))

theorem isDigit_ne_hashChar (c : Char) (h : c.isDigit = true) : ¬ (c = '#') :=
  fun he => absurd (he ▸ h) (by decide)

theorem takeWhile_eq_self_of_all {α : Type} (p : α → Bool) :
    ∀ (l : List α), (∀ c ∈ l, p c = true) → l.takeWhile p = l := by
  intro l
  induction l with
  | nil => intro _; rfl
  | cons c cs ih =>
    intro h
    simp [List.takeWhile_cons, h c (List.mem_cons_self c cs),
      ih (fun x hx => h x (List.mem_cons_of_mem c hx))]

/-- C4 (amended): when the grammar parses a maximal run of decimal digits
whose value exceeds the `u64` range, the whole parse aborts with the Rust
panic `"Parsing integer failed"` from the `.expect` in the integer rule —
it does not surface as a recoverable parse error with position and
expected-token context. -/
theorem lit_num_overflow_panics (f : Nat) (ds : List Char) (hne : ds ≠ [])
    (hdig : ds.all Char.isDigit = true) (hbig : 2 ^ 64 ≤ natOfDigits ds) :
    expr (f + 1) ds = PRes.panic "Parsing integer failed" := by
  rw [List.all_eq_true] at hdig
  obtain ⟨d, rest, rfl⟩ : ∃ d rest, ds = d :: rest := by
    cases ds with
    | nil => exact absurd rfl hne
    | cons d rest => exact ⟨d, rest, rfl⟩
  have hd : d.isDigit = true := hdig d (List.mem_cons_self d rest)
  have hw : d.isWhitespace = false := isDigit_isWhitespace_false d hd
  have hhash : ¬ (d = '#') := isDigit_ne_hashChar d hd
  have htw : (d :: rest).takeWhile Char.isDigit = d :: rest :=
    takeWhile_eq_self_of_all _ _ hdig
  have hdw : (d :: rest).dropWhile Char.isWhitespace = d :: rest := by
    rw [List.dropWhile_cons, hw]
    simp
  have hlt : (18446744073709551616 : Nat) ≤ natOfDigits (d :: rest) := by
    calc (18446744073709551616 : Nat) = 2 ^ 64 := by norm_num
    _ ≤ natOfDigits (d :: rest) := hbig
  simp [expr, whiteP, pseq, pmap, por, skipSpacesP, flse, stringP, lit_num,
    takeWhile1P, hdw, htw, hhash]
  rw [if_neg (Nat.not_lt.mpr hlt)]

/-- C4 counterexample: on the digit run for `2 ^ 64` (one past `u64::MAX`)
the parser's outcome is the panic — not a recoverable parse error, the
form unmatched parentheses or unexpected end of input produce. -/
theorem lit_num_overflow_cex :
    expr 1 (String.toList "18446744073709551616") =
      PRes.panic "Parsing integer failed" ∧
    isParseErr (expr 1 (String.toList "18446744073709551616")) = false :=
  ⟨by rfl, by rfl⟩

/-- C4 witness: the amended theorem applied to that digit run. -/
theorem lit_num_overflow_panics_wit :
    (String.toList "18446744073709551616" ≠ [] ∧
      (String.toList "18446744073709551616").all Char.isDigit = true ∧
      2 ^ 64 ≤ natOfDigits (String.toList "18446744073709551616")) ∧
    expr 1 (String.toList "18446744073709551616") =
      PRes.panic "Parsing integer failed" :=
  ⟨⟨by decide, by decide, by decide⟩,
    lit_num_overflow_panics 0 (String.toList "18446744073709551616")
      (by decide) (by decide) (by decide)⟩
